import Mathlib

/-!
Verification development for the UltraPlonk verifier repository.

The repository ships documentation and a JavaScript backend around a core
UltraPlonk verification engine.  The core engine itself (the Rust crate
named in the docs) is not part of the repository sources, so the engine is
modelled here from the specification; the JavaScript backend
(zk-backend/index.js) is embedded directly from its source.
-/

namespace UltraPlonk

/-- Modelled from the spec: the BN254 scalar-field modulus, the exact
constant named in spec section 6 and in the API docs constants section. -/
def FIELD_MODULUS : Nat :=
  21888242871839275222246405745257275088548364400416034343698204186575808495617

/-- Modelled from the spec: the coordinate (base) field prime of the BN254
curve over which commitments live; the spec names a pairing-friendly curve
with 256-bit prime order and the docs name BN254. -/
def BASE_MODULUS : Nat :=
  21888242871839275222246405745257275088696311157297823662689037894645226208583

/-- The scalar field of the proving system, as a Lean type. -/
abbrev Fr := ZMod FIELD_MODULUS

/-- Modelled from the spec: the error taxonomy of spec section 7
(Malformed Key, Malformed Proof, Input-Count Mismatch, Cryptographic
Failure, Internal/Unsupported).  The crate docs expose the corresponding
ProofError variants InvalidKey, InvalidProof, VerificationFailed. -/
inductive VerificationError where
  | malformedKey
  | malformedProof
  | inputCountMismatch
  | cryptographicFailure
  | internalUnsupported
deriving DecidableEq

/-- An affine curve point as decoded from two 32-byte big-endian
coordinates, with the reserved all-zero encoding for the point at
infinity (spec section 6). -/
structure AffinePoint where
  x : Nat
  y : Nat
  isInfinity : Bool
deriving DecidableEq

/-- Modelled from the spec: structured verification key (spec section 3):
domain size, declared public-input count, two generator points, selector
and permutation commitments, and lookup-table field elements. -/
structure VerificationKey where
  domainSize : Nat
  numPublicInputs : Nat
  generators : List AffinePoint
  commitments : List AffinePoint
  lookupTable : List Nat
deriving DecidableEq

/-- Modelled from the spec: structured proof (spec section 6): 8 main
commitment points, 10 evaluation field elements, 2 opening-proof points,
in a fixed order. -/
structure Proof where
  commitments : List AffinePoint
  evaluations : List Nat
  openingProof : List AffinePoint
deriving DecidableEq

/-- Big-endian interpretation of a byte list as a natural number; each
entry is reduced mod 256 as a machine byte. -/
def bytesToNat (bs : List Nat) : Nat :=
  bs.foldl (fun acc b => acc * 256 + b % 256) 0

/-- Modelled from the spec: a 32-byte chunk decodes to a field element
only when its value is strictly below the scalar-field modulus. -/
def readFieldElem (bs : List Nat) : Option Nat :=
  if bs.length = 32 then
    let v := bytesToNat bs
    if v < FIELD_MODULUS then some v else none
  else none

/-- The BN254 short Weierstrass curve equation check on affine
coordinates. -/
def onCurve (x y : Nat) : Bool :=
  (y * y) % BASE_MODULUS = (x * x * x + 3) % BASE_MODULUS

/-- Modelled from the spec: a 64-byte chunk decodes to a curve point when
the all-zero encoding marks the point at infinity, or both coordinates are
canonical base-field values and satisfy the curve equation. -/
def readPoint (bs : List Nat) : Option AffinePoint :=
  if bs.length = 64 then
    if bs.all (fun b => b % 256 = 0) then
      some ⟨0, 0, true⟩
    else
      let x := bytesToNat (bs.take 32)
      let y := bytesToNat (bs.drop 32)
      if x < BASE_MODULUS ∧ y < BASE_MODULUS ∧ onCurve x y then
        some ⟨x, y, false⟩
      else
        none
  else none

/-- Subgroup membership for decoded points: the relevant BN254 group has
cofactor one, so membership coincides with being on the curve (or being
the point at infinity). -/
def inSubgroup (p : AffinePoint) : Prop :=
  p.isInfinity = true ∨ onCurve p.x p.y = true

/-- Validity of a decoded point: either the point at infinity, or
canonical coordinates on the curve and in the correct subgroup. -/
def validPoint (p : AffinePoint) : Prop :=
  p.isInfinity = true ∨
    (p.x < BASE_MODULUS ∧ p.y < BASE_MODULUS ∧ onCurve p.x p.y = true ∧ inSubgroup p)

/-- Read a fixed count of consecutive 32-byte field-element chunks,
returning the decoded values and the remaining bytes. -/
def readFieldChunks : Nat → List Nat → Option (List Nat × List Nat)
  | 0, bs => some ([], bs)
  | n + 1, bs =>
    match readFieldElem (bs.take 32) with
    | none => none
    | some v =>
      match readFieldChunks n (bs.drop 32) with
      | none => none
      | some (vs, rest) => some (v :: vs, rest)

/-- Read a fixed count of consecutive 64-byte curve-point chunks,
returning the decoded points and the remaining bytes. -/
def readPoints : Nat → List Nat → Option (List AffinePoint × List Nat)
  | 0, bs => some ([], bs)
  | n + 1, bs =>
    match readPoint (bs.take 64) with
    | none => none
    | some p =>
      match readPoints n (bs.drop 64) with
      | none => none
      | some (ps, rest) => some (p :: ps, rest)

/-- Executable power-of-two test for the domain-size invariant of the
verification key (spec section 3): a positive number is a power of two
exactly when it shares no bit with its predecessor. -/
def isPow2 (n : Nat) : Bool :=
  n != 0 && (n &&& (n - 1)) == 0

/-- Modelled from the spec: expected byte size of a verification key with
the given fixed numbers of selector/permutation commitments and
lookup-table field elements (spec section 6 layout). -/
def vkExpectedSize (numSel numLookup : Nat) : Nat :=
  32 * 2 + 64 * 2 + 64 * numSel + 32 * numLookup

/-- Modelled from the spec: expected byte size of a proof — 8 commitment
points, 10 evaluation field elements, 2 opening-proof points (spec
section 6 layout). -/
def PROOF_SIZE : Nat := 64 * 8 + 32 * 10 + 64 * 2

/-- Modelled from the spec: the verification-key decoding pipeline (spec
section 4.1).  It checks the total length first, then decodes the
domain-size and public-input-count field elements, the power-of-two domain
invariant, the generator points, the commitments and the lookup table,
failing on any violation. -/
def decodeVkAux (numSel numLookup : Nat) (bs : List Nat) :
    Option VerificationKey :=
  if bs.length = vkExpectedSize numSel numLookup then
    (readFieldElem (bs.take 32)).bind fun n =>
    (readFieldElem ((bs.drop 32).take 32)).bind fun m =>
    (if isPow2 n then some () else none).bind fun _ =>
    (readPoints 2 ((bs.drop 32).drop 32)).bind fun g =>
    (readPoints numSel g.2).bind fun c =>
    (readFieldChunks numLookup c.2).bind fun l =>
    some ⟨n, m, g.1, c.1, l.1⟩
  else none

/-- Modelled from the spec: the format decoder for verification-key
bytes, rejecting with the Malformed Key kind on any violation of the
layout (spec sections 4.1 and 7). -/
def decodeVk (numSel numLookup : Nat) (bs : List Nat) :
    Except VerificationError VerificationKey :=
  match decodeVkAux numSel numLookup bs with
  | some k => Except.ok k
  | none => Except.error VerificationError.malformedKey

/-- Modelled from the spec: the proof decoding pipeline (spec section
4.1), checking the total length first and then each chunk in the fixed
order — 8 commitment points, 10 evaluations, 2 opening-proof points. -/
def decodeProofAux (bs : List Nat) : Option Proof :=
  if bs.length = PROOF_SIZE then
    (readPoints 8 bs).bind fun c =>
    (readFieldChunks 10 c.2).bind fun e =>
    (readPoints 2 e.2).bind fun o =>
    some ⟨c.1, e.1, o.1⟩
  else none

/-- Modelled from the spec: the format decoder for proof bytes, rejecting
with the Malformed Proof kind on any violation of the layout (spec
sections 4.1 and 7). -/
def decodeProof (bs : List Nat) : Except VerificationError Proof :=
  match decodeProofAux bs with
  | some p => Except.ok p
  | none => Except.error VerificationError.malformedProof

/-- Modelled from the spec: the barycentric Lagrange-basis coefficient at
index i for the multiplicative subgroup of order n generated by w,
evaluated at the challenge z (spec section 4.3). -/
def lagrangeCoeff (n : Nat) (w z : Fr) (i : Nat) : Fr :=
  (w ^ i * (z ^ n - 1)) * ((n : Fr) * (z - w ^ i))⁻¹

/-- Modelled from the spec: the public-input evaluator (spec section 4.3)
computing the evaluation at z of the unique polynomial through the public
inputs over the order-n subgroup, as the Lagrange-weighted sum; all
arithmetic is in the scalar field. -/
def evalPublicInputs (n : Nat) (w z : Fr) (inputs : List Fr) : Fr :=
  (inputs.enum.map (fun p => p.2 * lagrangeCoeff n w z p.1)).sum

/-- Modelled from the spec: the identity checker (spec section 4.4)
combining the public-input evaluation and the proof evaluations into the
expected quotient value, with a challenge as random linear combiner. -/
def identityValue (p : Proof) (alpha piEval : Fr) : Fr :=
  piEval + (p.evaluations.map (fun v => (v : Fr))).foldl
    (fun acc v => acc * alpha + v) 0

/-- Modelled from the spec: the deterministic cryptographic primitives the
orchestrator consumes — Fiat-Shamir challenge derivation from absorbed
bytes (spec section 4.2), the domain's root of unity, and the batched
pairing check (spec section 4.5).  All are plain functions, so challenge
derivation is a pure function of the absorbed data, with no hidden
randomness. -/
structure CryptoOracle where
  deriveChallenges : List Nat → List Fr
  rootOfUnity : VerificationKey → Fr
  pairingCheck : VerificationKey → Proof → Fr → Bool

/-- The stages of the verification orchestrator state machine (spec
section 4.6). -/
inductive Step where
  | decodeKey
  | countCheck
  | decodeProof
  | challengeDerivation
  | publicInputEval
  | identityCheck
  | openingVerification
deriving DecidableEq

/-- Steps that perform field or curve arithmetic on decoded values: every
stage of the pipeline after format decoding and the count check. -/
def isCryptoStep : Step → Bool
  | Step.challengeDerivation => true
  | Step.publicInputEval => true
  | Step.identityCheck => true
  | Step.openingVerification => true
  | _ => false

/-- The full stage list of a verification run that reaches the final
pairing check. -/
def allSteps : List Step :=
  [Step.decodeKey, Step.countCheck, Step.decodeProof,
   Step.challengeDerivation, Step.publicInputEval,
   Step.identityCheck, Step.openingVerification]

/-- Modelled from the spec: the verification orchestrator (spec sections
4.6 and 7).  It decodes the key, checks the public-input count against the
key's declared count, decodes the proof — short-circuiting to the tagged
error on the first fault, before any field or curve arithmetic — and only
then derives challenges, evaluates the public inputs, computes the
identity value and runs the batched opening check.  Alongside the tagged
result it returns the list of stages actually executed. -/
def verifyRun (O : CryptoOracle) (numSel numLookup : Nat)
    (vkBytes proofBytes : List Nat) (pubs : List (List Nat)) :
    Except VerificationError Unit × List Step :=
  match decodeVk numSel numLookup vkBytes with
  | Except.error e => (Except.error e, [Step.decodeKey])
  | Except.ok k =>
    if pubs.length = k.numPublicInputs then
      match decodeProof proofBytes with
      | Except.error e =>
        (Except.error e, [Step.decodeKey, Step.countCheck, Step.decodeProof])
      | Except.ok p =>
        let challenges := O.deriveChallenges (vkBytes ++ proofBytes ++ pubs.flatten)
        let z := challenges.headD 0
        let alpha := (challenges.drop 1).headD 0
        let piEval := evalPublicInputs k.domainSize (O.rootOfUnity k) z
          (pubs.map (fun b => (bytesToNat b : Fr)))
        let target := identityValue p alpha piEval
        if O.pairingCheck k p target then
          (Except.ok (), allSteps)
        else
          (Except.error VerificationError.cryptographicFailure, allSteps)
    else
      (Except.error VerificationError.inputCountMismatch,
       [Step.decodeKey, Step.countCheck])

/-- The result of the core verify entry point (spec section 6): the first
component of the instrumented orchestrator run. -/
def verify (O : CryptoOracle) (numSel numLookup : Nat)
    (vkBytes proofBytes : List Nat) (pubs : List (List Nat)) :
    Except VerificationError Unit :=
  (verifyRun O numSel numLookup vkBytes proofBytes pubs).1

/-- A sequence of verification calls run one after the other; each entry
carries its own key bytes, proof bytes and public inputs.  The engine
keeps no state between calls, so the batch is just the list of per-call
results. -/
def runBatch (O : CryptoOracle) (numSel numLookup : Nat)
    (calls : List (List Nat × List Nat × List (List Nat))) :
    List (Except VerificationError Unit) :=
  calls.map (fun c => verify O numSel numLookup c.1 c.2.1 c.2.2)

/-- Hex digit for a value below 16, lowercase as produced by the crate's
to_hex utility. -/
def natToHexDigit (n : Nat) : Char :=
  if n < 10 then Char.ofNat (48 + n) else Char.ofNat (87 + n)

/-- Numeric value of a hex digit, accepting lowercase and uppercase
letters; anything else is rejected. -/
def hexDigitToNat (c : Char) : Option Nat :=
  if 48 ≤ c.toNat ∧ c.toNat ≤ 57 then some (c.toNat - 48)
  else if 97 ≤ c.toNat ∧ c.toNat ≤ 102 then some (c.toNat - 87)
  else if 65 ≤ c.toNat ∧ c.toNat ≤ 70 then some (c.toNat - 55)
  else none

/-- Modelled from the spec: the crate's utils to_hex — each byte becomes
two lowercase hex digits, high nibble first (API docs, utility
functions). -/
def to_hex : List Nat → List Char
  | [] => []
  | b :: rest =>
    natToHexDigit (b % 256 / 16) :: natToHexDigit (b % 256 % 16) :: to_hex rest

/-- Parse hex digits two at a time into bytes; an odd number of digits or
a non-hex character fails. -/
def parseHexPairs : List Char → Option (List Nat)
  | [] => some []
  | [_] => none
  | c1 :: c2 :: rest =>
    match hexDigitToNat c1, hexDigitToNat c2, parseHexPairs rest with
    | some h, some l, some bs => some ((16 * h + l) :: bs)
    | _, _, _ => none

/-- Strip an optional leading 0x (or 0X) marker from a hex string, as the
text-boundary format allows (API docs, hex string format). -/
def stripHexMarker (s : List Char) : List Char :=
  match s with
  | c0 :: c1 :: rest =>
    if c0 = '0' ∧ (c1 = 'x' ∨ c1 = 'X') then rest else c0 :: c1 :: rest
  | _ => s

/-- Modelled from the spec: the crate's utils from_hex — optional 0x
marker, case-insensitive digits, even digit count required (API docs,
utility functions and hex string format). -/
def from_hex (s : List Char) : Option (List Nat) :=
  parseHexPairs (stripHexMarker s)

end UltraPlonk

namespace ZkBackend

/-- A JavaScript value as far as the backend handler inspects one:
undefined, null, booleans, integers, strings, byte objects and string
arrays, with the JavaScript truthiness each of them has. -/
inductive JsVal where
  | undef
  | nullV
  | boolV (b : Bool)
  | numV (n : Int)
  | strV (s : String)
  | bytesV (bs : List Nat)
  | arrV (xs : List String)
deriving DecidableEq

/-- JavaScript truthiness: undefined, null, false, 0 and the empty string
are falsy; objects and arrays are always truthy. -/
def JsVal.truthy : JsVal → Bool
  | JsVal.undef => false
  | JsVal.nullV => false
  | JsVal.boolV b => b
  | JsVal.numV n => n != 0
  | JsVal.strV s => s != ""
  | JsVal.bytesV _ => true
  | JsVal.arrV _ => true

/-- The byte list Object.values extracts from a value, as the handler
does before building a Uint8Array; non-object values contribute no
bytes. -/
def JsVal.objectValues : JsVal → List Nat
  | JsVal.bytesV bs => bs.map (fun b => b % 256)
  | _ => []

/-- The body of a POST request to the backend, destructured exactly as
index.js destructures req.body into proof, publicInputs and vk; an absent
field is the undefined value. -/
structure PostRequest where
  proof : JsVal
  publicInputs : JsVal
  vk : JsVal
deriving DecidableEq

/-- The observable side effects of one handler run, in order: the
circuit-file read, the local verifyProof call, the two WASM conversion
calls with the public-input count passed to convert_proof, and the
submission to zkVerify. -/
inductive Action where
  | readFile (path : String)
  | verifyProofCall
  | convertProofCall (numInputs : Nat)
  | convertVkCall
  | submitToZkVerify
deriving DecidableEq

/-- An HTTP response as the handler builds one: a status code and the
error message of the JSON body, if any. -/
structure Response where
  status : Nat
  errorMsg : Option String
deriving DecidableEq

/-- The WASM module the backend imports: convert_proof takes the proof
bytes and a public-input count, convert_verification_key takes the key
bytes. -/
structure UltraplonkModule where
  convert_proof : List Nat → Nat → String
  convert_verification_key : List Nat → String

/-- The error message of the missing-field response in index.js. -/
def missingFieldsMsg : String :=
  "Missing required fields: proof, publicInputs, vk"

/-- The error message of the failed-verification response in index.js. -/
def verificationFailedMsg : String :=
  "Proof verification failed"

/-- The circuit path index.js reads before verifying. -/
def circuitPath : String :=
  "../public/circuit.json"

/-- The message of the success response in index.js. -/
def successMsg : String :=
  "Proof submitted successfully"

/-- Embedded from src/zk-backend/index.js, convertProofAndVkToHex: calls
convert_proof with the proof bytes and the literal count 1, and
convert_verification_key with the key bytes, returning both hex strings
and recording the two calls. -/
def convertProofAndVkToHex (U : UltraplonkModule) (proof vk : List Nat) :
    (String × String) × List Action :=
  ((U.convert_proof proof 1, U.convert_verification_key vk),
   [Action.convertProofCall 1, Action.convertVkCall])

/-- Embedded from src/zk-backend/index.js, the POST handler: reject with
400 when proof, publicInputs or vk is missing or falsy, before any file
read; otherwise read the circuit, run the local verification, reject with
400 when it returns false, and only then convert and submit to zkVerify.
The local verifier is passed in as the function the Aztec backend
implements; the handler is pure in it. -/
def handlePost (U : UltraplonkModule) (verifyLocal : JsVal → JsVal → Bool)
    (req : PostRequest) : Response × List Action :=
  if !(req.proof.truthy && req.publicInputs.truthy && req.vk.truthy) then
    (⟨400, some missingFieldsMsg⟩, [])
  else
    let pre := [Action.readFile circuitPath, Action.verifyProofCall]
    if verifyLocal req.proof req.publicInputs = false then
      (⟨400, some verificationFailedMsg⟩, pre)
    else
      let conv := convertProofAndVkToHex U req.proof.objectValues req.vk.objectValues
      (⟨200, none⟩, pre ++ conv.2 ++ [Action.submitToZkVerify])

end ZkBackend

namespace UltraPlonk

/-- A list of zero bytes. -/
def zeros (n : Nat) : List Nat := List.replicate n 0

/-- Big-endian 32-byte encoding of a small value. -/
def feBytes (v : Nat) : List Nat := zeros 31 ++ [v]

/-- Byte encoding of the BN254 point with coordinates one and two, which
satisfies the curve equation. -/
def ptBytes : List Nat := feBytes 1 ++ feBytes 2

/-- The decoded BN254 point with coordinates one and two. -/
def goodPt : AffinePoint := ⟨1, 2, false⟩

/-- A well-formed verification-key byte stream for the zero-selector,
zero-lookup shape: domain size one, declared public-input count one, two
generator points. -/
def goodVkBytes : List Nat := feBytes 1 ++ feBytes 1 ++ ptBytes ++ ptBytes

/-- The verification key decoded from goodVkBytes. -/
def goodVk : VerificationKey := ⟨1, 1, [goodPt, goodPt], [], []⟩

/-- A well-formed proof byte stream: 8 commitments, 10 evaluations, 2
opening-proof points. -/
def goodProofBytes : List Nat :=
  (List.replicate 8 ptBytes).flatten ++ (List.replicate 10 (feBytes 1)).flatten
    ++ (List.replicate 2 ptBytes).flatten

/-- The proof decoded from goodProofBytes. -/
def goodProof : Proof :=
  ⟨List.replicate 8 goodPt, List.replicate 10 1, List.replicate 2 goodPt⟩

/-- A concrete deterministic oracle instance for exercising the
orchestrator on closed inputs. -/
def trivialOracle : CryptoOracle :=
  ⟨fun bs => [(bytesToNat bs : Fr)], fun _ => 1, fun _ _ _ => false⟩

/-- The range/curve validity a decoded verification key must satisfy:
every field-element chunk strictly below the scalar-field modulus, every
point chunk a valid curve point in the right subgroup. -/
def validKeyContent (k : VerificationKey) : Prop :=
  k.domainSize < FIELD_MODULUS ∧ k.numPublicInputs < FIELD_MODULUS ∧
  (∀ v ∈ k.lookupTable, v < FIELD_MODULUS) ∧
  (∀ pt ∈ k.generators ++ k.commitments, validPoint pt)

/-- The range/curve validity a decoded proof must satisfy: every
evaluation strictly below the scalar-field modulus, every commitment and
opening-proof point a valid curve point in the right subgroup. -/
def validProofContent (p : Proof) : Prop :=
  (∀ v ∈ p.evaluations, v < FIELD_MODULUS) ∧
  (∀ pt ∈ p.commitments ++ p.openingProof, validPoint pt)

end UltraPlonk

namespace UltraPlonk

/-- A chunk accepted as a field element is strictly below the
scalar-field modulus. -/
theorem readFieldElem_lt {bs : List Nat} {v : Nat}
    (h : readFieldElem bs = some v) : v < FIELD_MODULUS := by
  simp only [readFieldElem] at h
  split at h
  · split at h
    · rename_i hlt
      cases h
      exact hlt
    · cases h
  · cases h

/-- A chunk accepted as a curve point is a valid point: the infinity
encoding, or canonical coordinates on the curve and in the subgroup. -/
theorem readPoint_valid {bs : List Nat} {p : AffinePoint}
    (h : readPoint bs = some p) : validPoint p := by
  simp only [readPoint] at h
  split at h
  · split at h
    · cases h
      exact Or.inl rfl
    · split at h
      · rename_i hcond
        cases h
        exact Or.inr ⟨hcond.1, hcond.2.1, hcond.2.2, Or.inr hcond.2.2⟩
      · cases h
  · cases h

/-- Every value produced by a run of field-element chunk reads is
strictly below the scalar-field modulus. -/
theorem readFieldChunks_lt :
    ∀ (n : Nat) (bs vs rest : List Nat),
      readFieldChunks n bs = some (vs, rest) → ∀ v ∈ vs, v < FIELD_MODULUS
  | 0, bs, vs, rest, h => by
    simp only [readFieldChunks, Option.some.injEq, Prod.mk.injEq] at h
    intro v hv
    rw [← h.1] at hv
    cases hv
  | n + 1, bs, vs, rest, h => by
    simp only [readFieldChunks] at h
    cases hfe : readFieldElem (bs.take 32) with
    | none => rw [hfe] at h; cases h
    | some v0 =>
      rw [hfe] at h
      cases hrc : readFieldChunks n (bs.drop 32) with
      | none => rw [hrc] at h; cases h
      | some pr =>
        obtain ⟨vs0, rest0⟩ := pr
        rw [hrc] at h
        simp only [Option.some.injEq, Prod.mk.injEq] at h
        intro v hv
        rw [← h.1] at hv
        rcases List.mem_cons.mp hv with rfl | hv2
        · exact readFieldElem_lt hfe
        · exact readFieldChunks_lt n (bs.drop 32) vs0 rest0 hrc v hv2

/-- Every point produced by a run of curve-point chunk reads is a valid
point. -/
theorem readPoints_valid :
    ∀ (n : Nat) (bs : List Nat) (ps : List AffinePoint) (rest : List Nat),
      readPoints n bs = some (ps, rest) → ∀ p ∈ ps, validPoint p
  | 0, bs, ps, rest, h => by
    simp only [readPoints, Option.some.injEq, Prod.mk.injEq] at h
    intro p hp
    rw [← h.1] at hp
    cases hp
  | n + 1, bs, ps, rest, h => by
    simp only [readPoints] at h
    cases hfe : readPoint (bs.take 64) with
    | none => rw [hfe] at h; cases h
    | some p0 =>
      rw [hfe] at h
      cases hrc : readPoints n (bs.drop 64) with
      | none => rw [hrc] at h; cases h
      | some pr =>
        obtain ⟨ps0, rest0⟩ := pr
        rw [hrc] at h
        simp only [Option.some.injEq, Prod.mk.injEq] at h
        intro p hp
        rw [← h.1] at hp
        rcases List.mem_cons.mp hp with rfl | hp2
        · exact readPoint_valid hfe
        · exact readPoints_valid n (bs.drop 64) ps0 rest0 hrc p hp2

/-- A decoded verification key satisfies the range and curve validity of
its content. -/
theorem decodeVkAux_valid {ns nl : Nat} {bs : List Nat}
    {k : VerificationKey} (h : decodeVkAux ns nl bs = some k) :
    validKeyContent k := by
  simp only [decodeVkAux] at h
  split at h
  · simp only [Option.bind_eq_some] at h
    obtain ⟨n, hn, m, hm, u, hu, g, hg, c, hc, l, hl, hk⟩ := h
    cases hk
    refine ⟨readFieldElem_lt hn, readFieldElem_lt hm,
      readFieldChunks_lt nl c.2 l.1 l.2 (by rw [hl]), ?_⟩
    intro pt hpt
    rcases List.mem_append.mp hpt with hptg | hptc
    · exact readPoints_valid 2 ((bs.drop 32).drop 32) g.1 g.2 (by rw [hg]) pt hptg
    · exact readPoints_valid ns g.2 c.1 c.2 (by rw [hc]) pt hptc
  · cases h

/-- A decoded proof satisfies the range and curve validity of its
content. -/
theorem decodeProofAux_valid {bs : List Nat} {p : Proof}
    (h : decodeProofAux bs = some p) : validProofContent p := by
  simp only [decodeProofAux] at h
  split at h
  · simp only [Option.bind_eq_some] at h
    obtain ⟨c, hc, e, he, o, ho, hp⟩ := h
    cases hp
    refine ⟨readFieldChunks_lt 10 c.2 e.1 e.2 (by rw [he]), ?_⟩
    intro pt hpt
    rcases List.mem_append.mp hpt with hptc | hpto
    · exact readPoints_valid 8 bs c.1 c.2 (by rw [hc]) pt hptc
    · exact readPoints_valid 2 e.2 o.1 o.2 (by rw [ho]) pt hpto
  · cases h

/-- The only error kind the key decoder emits is Malformed Key. -/
theorem decodeVk_error_kind {ns nl : Nat} {bs : List Nat}
    {e : VerificationError} (h : decodeVk ns nl bs = Except.error e) :
    e = VerificationError.malformedKey := by
  unfold decodeVk at h
  cases ha : decodeVkAux ns nl bs with
  | some k => rw [ha] at h; cases h
  | none => rw [ha] at h; cases h; rfl

/-- The only error kind the proof decoder emits is Malformed Proof. -/
theorem decodeProof_error_kind {bs : List Nat} {e : VerificationError}
    (h : decodeProof bs = Except.error e) :
    e = VerificationError.malformedProof := by
  unfold decodeProof at h
  cases ha : decodeProofAux bs with
  | some p => rw [ha] at h; cases h
  | none => rw [ha] at h; cases h; rfl

/-- A key byte buffer of the wrong total length is rejected as Malformed
Key. -/
theorem decodeVk_wrong_length {ns nl : Nat} {bs : List Nat}
    (h : bs.length ≠ vkExpectedSize ns nl) :
    decodeVk ns nl bs = Except.error VerificationError.malformedKey := by
  unfold decodeVk decodeVkAux
  rw [if_neg h]

/-- A proof byte buffer of the wrong total length is rejected as
Malformed Proof. -/
theorem decodeProof_wrong_length {bs : List Nat}
    (h : bs.length ≠ PROOF_SIZE) :
    decodeProof bs = Except.error VerificationError.malformedProof := by
  unfold decodeProof decodeProofAux
  rw [if_neg h]

/-- When the key decoder fails, the orchestrator stops at the decode
stage with that error. -/
theorem verifyRun_vk_error (O : CryptoOracle) (ns nl : Nat)
    (vkB prB : List Nat) (pubs : List (List Nat)) {e : VerificationError}
    (h : decodeVk ns nl vkB = Except.error e) :
    verifyRun O ns nl vkB prB pubs = (Except.error e, [Step.decodeKey]) := by
  unfold verifyRun
  rw [h]

/-- When the key decodes but the public-input count differs from the
declared count, the orchestrator stops at the count check. -/
theorem verifyRun_count_mismatch (O : CryptoOracle) (ns nl : Nat)
    (vkB prB : List Nat) (pubs : List (List Nat)) {k : VerificationKey}
    (hk : decodeVk ns nl vkB = Except.ok k)
    (hm : pubs.length ≠ k.numPublicInputs) :
    verifyRun O ns nl vkB prB pubs =
      (Except.error VerificationError.inputCountMismatch,
       [Step.decodeKey, Step.countCheck]) := by
  unfold verifyRun
  rw [hk]
  simp [hm]

/-- When the key decodes and the count matches but the proof decoder
fails, the orchestrator stops at the proof decode stage with that
error. -/
theorem verifyRun_proof_error (O : CryptoOracle) (ns nl : Nat)
    (vkB prB : List Nat) (pubs : List (List Nat)) {k : VerificationKey}
    {e : VerificationError}
    (hk : decodeVk ns nl vkB = Except.ok k)
    (hm : pubs.length = k.numPublicInputs)
    (hp : decodeProof prB = Except.error e) :
    verifyRun O ns nl vkB prB pubs =
      (Except.error e,
       [Step.decodeKey, Step.countCheck, Step.decodeProof]) := by
  unfold verifyRun
  rw [hk]
  simp [hm, hp]

/-- C1: verify is a pure, deterministic, idempotent function of
(key, proof, public inputs).  The last result of a batch that ends with a
given call is exactly the pure function of that call's own inputs, for
every sequence of prior calls — so repeated calls on byte-identical
inputs return identical results, and no state left by prior verification
calls can change a later result. -/
theorem verify_deterministic_stateless
    (O : CryptoOracle) (numSel numLookup : Nat)
    (prior other : List (List Nat × List Nat × List (List Nat)))
    (k p : List Nat) (i : List (List Nat)) :
    (runBatch O numSel numLookup (prior ++ [(k, p, i)])).getLast? =
      some (verify O numSel numLookup k p i) ∧
    (runBatch O numSel numLookup (prior ++ [(k, p, i)])).getLast? =
      (runBatch O numSel numLookup (other ++ [(k, p, i)])).getLast? := by
  constructor
  · simp [runBatch]
  · simp [runBatch]

/-- C2: whenever the supplied public-input count differs from the decoded
key's declared count, verify reports the Input-Count Mismatch kind — for
every proof byte buffer — and the executed stages contain no cryptographic
step, so no field/curve arithmetic or pairing is attempted. -/
theorem input_count_mismatch_no_crypto
    (O : CryptoOracle) (ns nl : Nat) (vkB prB : List Nat)
    (pubs : List (List Nat)) (k : VerificationKey)
    (hk : decodeVk ns nl vkB = Except.ok k)
    (hm : pubs.length ≠ k.numPublicInputs) :
    verify O ns nl vkB prB pubs =
      Except.error VerificationError.inputCountMismatch ∧
    ∀ s ∈ (verifyRun O ns nl vkB prB pubs).2, isCryptoStep s = false := by
  have he := verifyRun_count_mismatch O ns nl vkB prB pubs hk hm
  constructor
  · unfold verify
    rw [he]
  · rw [he]
    intro s hs
    rcases List.mem_cons.mp hs with rfl | hs2
    · rfl
    · rcases List.mem_cons.mp hs2 with rfl | hs3
      · rfl
      · cases hs3

set_option maxRecDepth 100000 in
/-- C2 witness: a well-formed key declaring one public input, supplied
with an empty public-input list, is rejected with Input-Count Mismatch
and no cryptographic stage runs. -/
theorem input_count_mismatch_no_crypto_witness :
    verify trivialOracle 0 0 goodVkBytes goodProofBytes [] =
      Except.error VerificationError.inputCountMismatch ∧
    ∀ s ∈ (verifyRun trivialOracle 0 0 goodVkBytes goodProofBytes []).2,
      isCryptoStep s = false :=
  input_count_mismatch_no_crypto trivialOracle 0 0 goodVkBytes goodProofBytes
    [] goodVk (by rfl) (by decide)

/-- C3: a key byte buffer of wrong total length is rejected as Malformed
Key, and a proof byte buffer of wrong total length (against a key that
decodes, with a matching input count) is rejected as Malformed Proof; in
both cases no cryptographic stage is executed.  The embedded decoder is a
total function, so the rejection is a returned tagged error, never a
panic or an out-of-bounds read. -/
theorem wrong_length_rejected
    (O : CryptoOracle) (ns nl : Nat) (vkB prB : List Nat)
    (pubs : List (List Nat)) :
    (vkB.length ≠ vkExpectedSize ns nl →
      verify O ns nl vkB prB pubs =
        Except.error VerificationError.malformedKey ∧
      ∀ s ∈ (verifyRun O ns nl vkB prB pubs).2, isCryptoStep s = false) ∧
    (∀ k, decodeVk ns nl vkB = Except.ok k →
      pubs.length = k.numPublicInputs → prB.length ≠ PROOF_SIZE →
      verify O ns nl vkB prB pubs =
        Except.error VerificationError.malformedProof ∧
      ∀ s ∈ (verifyRun O ns nl vkB prB pubs).2, isCryptoStep s = false) := by
  constructor
  · intro hlen
    have he := verifyRun_vk_error O ns nl vkB prB pubs
      (decodeVk_wrong_length hlen)
    constructor
    · unfold verify
      rw [he]
    · rw [he]
      intro s hs
      rcases List.mem_cons.mp hs with rfl | h2
      · rfl
      · cases h2
  · intro k hk hc hlen
    have he := verifyRun_proof_error O ns nl vkB prB pubs hk hc
      (decodeProof_wrong_length hlen)
    constructor
    · unfold verify
      rw [he]
    · rw [he]
      intro s hs
      rcases List.mem_cons.mp hs with rfl | h2
      · rfl
      rcases List.mem_cons.mp h2 with rfl | h3
      · rfl
      rcases List.mem_cons.mp h3 with rfl | h4
      · rfl
      cases h4

set_option maxRecDepth 100000 in
/-- C3 witness: the concrete spec scenario — a 100-byte all-zero buffer
supplied as proof against a well-formed key fails with Malformed Proof
before any cryptographic stage runs. -/
theorem wrong_length_rejected_witness :
    verify trivialOracle 0 0 goodVkBytes (zeros 100) [feBytes 10] =
      Except.error VerificationError.malformedProof ∧
    ∀ s ∈ (verifyRun trivialOracle 0 0 goodVkBytes (zeros 100)
      [feBytes 10]).2, isCryptoStep s = false :=
  (wrong_length_rejected trivialOracle 0 0 goodVkBytes (zeros 100)
    [feBytes 10]).2 goodVk (by rfl) (by decide) (by decide)

/-- C4: every accepted field-element chunk is strictly below the
scalar-field modulus and every accepted curve-point chunk is on the curve
and in the subgroup; a violating chunk makes the decoder reject with the
Malformed Proof / Malformed Key kind (the only errors it emits); and a
cryptographic stage can appear in a run's trace only when both decoders
accepted, so validation happens before any field or curve arithmetic on
decoded values. -/
theorem decoder_validates_before_arithmetic (ns nl : Nat) (bs : List Nat) :
    (∀ p, decodeProof bs = Except.ok p → validProofContent p) ∧
    (∀ k, decodeVk ns nl bs = Except.ok k → validKeyContent k) ∧
    (∀ e, decodeProof bs = Except.error e →
      e = VerificationError.malformedProof) ∧
    (∀ e, decodeVk ns nl bs = Except.error e →
      e = VerificationError.malformedKey) ∧
    (∀ (O : CryptoOracle) (vkB : List Nat) (pubs : List (List Nat)),
      (∃ s ∈ (verifyRun O ns nl vkB bs pubs).2, isCryptoStep s = true) →
      (∃ k, decodeVk ns nl vkB = Except.ok k) ∧
      (∃ p, decodeProof bs = Except.ok p)) := by
  refine ⟨?_, ?_, ?_, ?_, ?_⟩
  · intro p hp
    unfold decodeProof at hp
    cases ha : decodeProofAux bs with
    | some q =>
      rw [ha] at hp
      cases hp
      exact decodeProofAux_valid ha
    | none => rw [ha] at hp; cases hp
  · intro k hk
    unfold decodeVk at hk
    cases ha : decodeVkAux ns nl bs with
    | some q =>
      rw [ha] at hk
      cases hk
      exact decodeVkAux_valid ha
    | none => rw [ha] at hk; cases hk
  · intro e he
    exact decodeProof_error_kind he
  · intro e he
    exact decodeVk_error_kind he
  · intro O vkB pubs h
    cases hvk : decodeVk ns nl vkB with
    | error e =>
      rw [verifyRun_vk_error O ns nl vkB bs pubs hvk] at h
      obtain ⟨s, hs, hc⟩ := h
      rcases List.mem_cons.mp hs with rfl | h2
      · cases hc
      · cases h2
    | ok k =>
      by_cases hcnt : pubs.length = k.numPublicInputs
      · cases hpr : decodeProof bs with
        | error e =>
          rw [verifyRun_proof_error O ns nl vkB bs pubs hvk hcnt hpr] at h
          obtain ⟨s, hs, hc⟩ := h
          rcases List.mem_cons.mp hs with rfl | h2
          · cases hc
          rcases List.mem_cons.mp h2 with rfl | h3
          · cases hc
          rcases List.mem_cons.mp h3 with rfl | h4
          · cases hc
          cases h4
        | ok p => exact ⟨⟨k, rfl⟩, ⟨p, rfl⟩⟩
      · rw [verifyRun_count_mismatch O ns nl vkB bs pubs hvk hcnt] at h
        obtain ⟨s, hs, hc⟩ := h
        rcases List.mem_cons.mp hs with rfl | h2
        · cases hc
        rcases List.mem_cons.mp h2 with rfl | h3
        · cases hc
        cases h3

set_option maxRecDepth 100000 in
/-- C4 witness: a concrete well-formed proof byte stream decodes, and the
theorem yields the range and curve validity of its decoded content. -/
theorem decoder_validates_before_arithmetic_witness :
    validProofContent goodProof :=
  (decoder_validates_before_arithmetic 0 0 goodProofBytes).1 goodProof
    (by rfl)

/-- C5: on malformed-but-well-typed input — a key or proof buffer the
decoder rejects — verify returns a tagged error outcome whose kind is a
malformed-encoding or count kind, distinct from the Cryptographic Failure
kind; the embedding is a total function, so no defect is thrown. -/
theorem malformed_input_tagged_error
    (O : CryptoOracle) (ns nl : Nat) (vkB prB : List Nat)
    (pubs : List (List Nat))
    (h : (∃ e, decodeVk ns nl vkB = Except.error e) ∨
         (∃ e, decodeProof prB = Except.error e)) :
    ∃ e, verify O ns nl vkB prB pubs = Except.error e ∧
      (e = VerificationError.malformedKey ∨
       e = VerificationError.malformedProof ∨
       e = VerificationError.inputCountMismatch) ∧
      e ≠ VerificationError.cryptographicFailure := by
  cases hvk : decodeVk ns nl vkB with
  | error e0 =>
    have hk := decodeVk_error_kind hvk
    subst hk
    refine ⟨_, ?_, Or.inl rfl, by decide⟩
    unfold verify
    rw [verifyRun_vk_error O ns nl vkB prB pubs hvk]
  | ok k =>
    by_cases hcnt : pubs.length = k.numPublicInputs
    · cases hpr : decodeProof prB with
      | error e1 =>
        have hp := decodeProof_error_kind hpr
        subst hp
        refine ⟨_, ?_, Or.inr (Or.inl rfl), by decide⟩
        unfold verify
        rw [verifyRun_proof_error O ns nl vkB prB pubs hvk hcnt hpr]
      | ok p =>
        exfalso
        rcases h with ⟨e, he⟩ | ⟨e, he⟩
        · rw [hvk] at he
          cases he
        · rw [hpr] at he
          cases he
    · refine ⟨_, ?_, Or.inr (Or.inr rfl), by decide⟩
      unfold verify
      rw [verifyRun_count_mismatch O ns nl vkB prB pubs hvk hcnt]

/-- C5 witness: an empty key buffer is malformed input, and verify on it
returns a tagged malformed-kind error distinct from Cryptographic
Failure. -/
theorem malformed_input_tagged_error_witness :
    ∃ e, verify trivialOracle 0 0 [] goodProofBytes [] =
      Except.error e ∧
      (e = VerificationError.malformedKey ∨
       e = VerificationError.malformedProof ∨
       e = VerificationError.inputCountMismatch) ∧
      e ≠ VerificationError.cryptographicFailure :=
  malformed_input_tagged_error trivialOracle 0 0 [] goodProofBytes []
    (Or.inl ⟨VerificationError.malformedKey, by rfl⟩)

/-- C6: the public-input evaluator on an empty public-input sequence is
exactly the zero field element, for every domain size, subgroup generator
and evaluation challenge; the evaluator computes in the scalar field. -/
theorem evalPublicInputs_empty (n : Nat) (w z : Fr) :
    evalPublicInputs n w z [] = 0 := by
  simp [evalPublicInputs]

/-- Hex encoding of a nibble followed by decoding is the identity. -/
theorem hexDigit_roundtrip : ∀ x < 16, hexDigitToNat (natToHexDigit x) = some x := by
  decide

/-- Hex encoding of a nibble, uppercased, decodes to the same value. -/
theorem hexDigit_upper_roundtrip :
    ∀ x < 16, hexDigitToNat ((natToHexDigit x).toUpper) = some x := by
  decide

/-- A hex digit emitted by the encoder is never the marker letter, in
either case, nor is its uppercase image. -/
theorem hexDigit_ne_marker :
    ∀ x < 16, natToHexDigit x ≠ 'x' ∧ natToHexDigit x ≠ 'X' ∧
      (natToHexDigit x).toUpper ≠ 'x' ∧ (natToHexDigit x).toUpper ≠ 'X' := by
  decide

/-- The hex encoding of a byte list has exactly two digits per byte. -/
theorem to_hex_length : ∀ (bs : List Nat), (to_hex bs).length = 2 * bs.length
  | [] => rfl
  | b :: rest => by
    simp only [to_hex, List.length_cons, to_hex_length rest]
    omega

/-- Parsing the hex encoding of a byte list recovers the bytes. -/
theorem parseHexPairs_to_hex :
    ∀ (bs : List Nat), (∀ b ∈ bs, b < 256) →
      parseHexPairs (to_hex bs) = some bs
  | [], _ => rfl
  | b :: rest, h => by
    have hb : b < 256 := h b (List.mem_cons_self b rest)
    have hrest := parseHexPairs_to_hex rest
      (fun v hv => h v (List.mem_cons_of_mem b hv))
    have h1 : b % 256 / 16 < 16 := by omega
    have h2 : b % 256 % 16 < 16 := by omega
    simp only [to_hex, parseHexPairs, hexDigit_roundtrip _ h1,
      hexDigit_roundtrip _ h2, hrest]
    have hv : 16 * (b % 256 / 16) + b % 256 % 16 = b := by omega
    simp [hv]

/-- Parsing the uppercased hex encoding of a byte list recovers the
bytes. -/
theorem parseHexPairs_to_hex_upper :
    ∀ (bs : List Nat), (∀ b ∈ bs, b < 256) →
      parseHexPairs ((to_hex bs).map Char.toUpper) = some bs
  | [], _ => rfl
  | b :: rest, h => by
    have hb : b < 256 := h b (List.mem_cons_self b rest)
    have hrest := parseHexPairs_to_hex_upper rest
      (fun v hv => h v (List.mem_cons_of_mem b hv))
    have h1 : b % 256 / 16 < 16 := by omega
    have h2 : b % 256 % 16 < 16 := by omega
    simp only [to_hex, List.map_cons, parseHexPairs,
      hexDigit_upper_roundtrip _ h1, hexDigit_upper_roundtrip _ h2, hrest]
    have hv : 16 * (b % 256 / 16) + b % 256 % 16 = b := by omega
    simp [hv]

/-- The marker stripper leaves an encoder output unchanged: the second
emitted digit is never the marker letter. -/
theorem stripHexMarker_to_hex (bs : List Nat) :
    stripHexMarker (to_hex bs) = to_hex bs := by
  cases bs with
  | nil => rfl
  | cons b rest =>
    have h2 : b % 256 % 16 < 16 := by omega
    have hne := hexDigit_ne_marker _ h2
    simp only [to_hex, stripHexMarker]
    rw [if_neg]
    intro hcond
    rcases hcond.2 with hx | hx
    · exact hne.1 hx
    · exact hne.2.1 hx

/-- The marker stripper leaves an uppercased encoder output unchanged. -/
theorem stripHexMarker_to_hex_upper (bs : List Nat) :
    stripHexMarker ((to_hex bs).map Char.toUpper) =
      (to_hex bs).map Char.toUpper := by
  cases bs with
  | nil => rfl
  | cons b rest =>
    have h2 : b % 256 % 16 < 16 := by omega
    have hne := hexDigit_ne_marker _ h2
    simp only [to_hex, List.map_cons, stripHexMarker]
    rw [if_neg]
    intro hcond
    rcases hcond.2 with hx | hx
    · exact hne.2.2.1 hx
    · exact hne.2.2.2 hx

/-- A successful pair parse consumed an even number of digits, all of
them hex digits. -/
theorem parseHexPairs_sound :
    ∀ (t : List Char) (out : List Nat), parseHexPairs t = some out →
      t.length % 2 = 0 ∧ ∀ c ∈ t, (hexDigitToNat c).isSome
  | [], _, _ => ⟨rfl, by intro c hc; cases hc⟩
  | [c], _, h => by simp [parseHexPairs] at h
  | c1 :: c2 :: rest, out, h => by
    simp only [parseHexPairs] at h
    cases h1 : hexDigitToNat c1 with
    | none => simp [h1] at h
    | some v1 =>
      cases h2 : hexDigitToNat c2 with
      | none => simp [h1, h2] at h
      | some v2 =>
        cases h3 : parseHexPairs rest with
        | none => simp [h1, h2, h3] at h
        | some bs0 =>
          have ih := parseHexPairs_sound rest bs0 h3
          constructor
          · simp only [List.length_cons]
            omega
          · intro c hc
            rcases List.mem_cons.mp hc with rfl | hc2
            · simp [h1]
            rcases List.mem_cons.mp hc2 with rfl | hc3
            · simp [h2]
            · exact ih.2 c hc3

/-- C7: to_hex emits an even number of digits (two per byte); from_hex
inverts it exactly — bare, with the 0x marker, and uppercased — and a
from_hex success implies the digit sequence after the optional marker is
even-length and all hex, so odd counts and non-hex characters are
rejected. -/
theorem hex_roundtrip (bs : List Nat) (h : ∀ b ∈ bs, b < 256) :
    (to_hex bs).length = 2 * bs.length ∧
    from_hex (to_hex bs) = some bs ∧
    from_hex ('0' :: 'x' :: to_hex bs) = some bs ∧
    from_hex ((to_hex bs).map Char.toUpper) = some bs ∧
    (∀ (s : List Char) (out : List Nat), from_hex s = some out →
      (stripHexMarker s).length % 2 = 0 ∧
      ∀ c ∈ stripHexMarker s, (hexDigitToNat c).isSome) := by
  refine ⟨to_hex_length bs, ?_, ?_, ?_, ?_⟩
  · unfold from_hex
    rw [stripHexMarker_to_hex]
    exact parseHexPairs_to_hex bs h
  · unfold from_hex
    have hs : stripHexMarker ('0' :: 'x' :: to_hex bs) = to_hex bs := by
      simp [stripHexMarker]
    rw [hs]
    exact parseHexPairs_to_hex bs h
  · unfold from_hex
    rw [stripHexMarker_to_hex_upper]
    exact parseHexPairs_to_hex_upper bs h
  · intro s out hso
    exact parseHexPairs_sound (stripHexMarker s) out hso

/-- C7 witness: the byte list from the docs example round-trips through
to_hex and from_hex, bare and with the 0x marker. -/
theorem hex_roundtrip_witness :
    from_hex (to_hex [21, 210, 200]) = some [21, 210, 200] ∧
    from_hex ('0' :: 'x' :: to_hex [21, 210, 200]) = some [21, 210, 200] :=
  ⟨(hex_roundtrip [21, 210, 200] (by decide)).2.1,
   (hex_roundtrip [21, 210, 200] (by decide)).2.2.1⟩

end UltraPlonk

namespace ZkBackend

/-- C9: when proof, publicInputs or vk is missing or falsy, the POST
handler answers 400 with the message naming the required fields and
performs no file read, verification, conversion or submission. -/
theorem post_missing_fields_rejected
    (U : UltraplonkModule) (verifyLocal : JsVal → JsVal → Bool)
    (req : PostRequest)
    (h : req.proof.truthy = false ∨ req.publicInputs.truthy = false ∨
      req.vk.truthy = false) :
    handlePost U verifyLocal req = (⟨400, some missingFieldsMsg⟩, []) := by
  unfold handlePost
  rcases h with h | h | h <;> simp [h]

/-- C9 witness: a request with no proof field is rejected with 400, the
missing-fields message, and an empty action trace. -/
theorem post_missing_fields_rejected_witness :
    handlePost ⟨fun _ _ => "", fun _ => ""⟩ (fun _ _ => true)
      ⟨JsVal.undef, JsVal.arrV [], JsVal.bytesV [1]⟩ =
      (⟨400, some missingFieldsMsg⟩, []) :=
  post_missing_fields_rejected ⟨fun _ _ => "", fun _ => ""⟩ (fun _ _ => true)
    ⟨JsVal.undef, JsVal.arrV [], JsVal.bytesV [1]⟩ (Or.inl rfl)

/-- C8: when the local verification returns false the POST handler
answers 400 and the proof is never converted nor submitted to zkVerify:
no conversion call and no submission occurs in the action trace. -/
theorem post_failed_proof_not_submitted
    (U : UltraplonkModule) (verifyLocal : JsVal → JsVal → Bool)
    (req : PostRequest)
    (h : verifyLocal req.proof req.publicInputs = false) :
    (handlePost U verifyLocal req).1.status = 400 ∧
    Action.submitToZkVerify ∉ (handlePost U verifyLocal req).2 ∧
    (∀ n, Action.convertProofCall n ∉ (handlePost U verifyLocal req).2) ∧
    Action.convertVkCall ∉ (handlePost U verifyLocal req).2 := by
  unfold handlePost
  by_cases ht : (req.proof.truthy && req.publicInputs.truthy && req.vk.truthy) = true
  · simp [ht, h]
  · simp [ht]

/-- C8 witness: a request with all fields present whose local
verification fails gets status 400 and a trace with no conversion or
submission. -/
theorem post_failed_proof_not_submitted_witness :
    (handlePost ⟨fun _ _ => "", fun _ => ""⟩ (fun _ _ => false)
      ⟨JsVal.bytesV [1], JsVal.arrV [], JsVal.bytesV [2]⟩).1.status = 400 ∧
    Action.submitToZkVerify ∉ (handlePost ⟨fun _ _ => "", fun _ => ""⟩
      (fun _ _ => false) ⟨JsVal.bytesV [1], JsVal.arrV [], JsVal.bytesV [2]⟩).2 ∧
    (∀ n, Action.convertProofCall n ∉ (handlePost ⟨fun _ _ => "", fun _ => ""⟩
      (fun _ _ => false) ⟨JsVal.bytesV [1], JsVal.arrV [], JsVal.bytesV [2]⟩).2) ∧
    Action.convertVkCall ∉ (handlePost ⟨fun _ _ => "", fun _ => ""⟩
      (fun _ _ => false) ⟨JsVal.bytesV [1], JsVal.arrV [], JsVal.bytesV [2]⟩).2 :=
  post_failed_proof_not_submitted ⟨fun _ _ => "", fun _ => ""⟩ (fun _ _ => false)
    ⟨JsVal.bytesV [1], JsVal.arrV [], JsVal.bytesV [2]⟩ rfl

/-- C10: convertProofAndVkToHex always calls convert_proof with the
public-input count literal 1: its proof result is convert_proof applied
at count 1, its recorded calls carry count 1, and every conversion call
recorded by a handler run carries count 1, for every request whatever the
length of its publicInputs array. -/
theorem convert_proof_count_always_one
    (U : UltraplonkModule) (proof vk : List Nat) :
    (convertProofAndVkToHex U proof vk).1.1 = U.convert_proof proof 1 ∧
    (convertProofAndVkToHex U proof vk).2 =
      [Action.convertProofCall 1, Action.convertVkCall] ∧
    ∀ (verifyLocal : JsVal → JsVal → Bool) (req : PostRequest) (n : Nat),
      Action.convertProofCall n ∈ (handlePost U verifyLocal req).2 → n = 1 := by
  refine ⟨rfl, rfl, ?_⟩
  intro verifyLocal req n hmem
  unfold handlePost at hmem
  by_cases ht : (req.proof.truthy && req.publicInputs.truthy && req.vk.truthy) = true
  · simp only [ht] at hmem
    by_cases hv : verifyLocal req.proof req.publicInputs = false
    · simp [hv] at hmem
    · simp [hv, convertProofAndVkToHex] at hmem
      exact hmem
  · simp [ht] at hmem

/-- C10 witness: a successful handler run records a conversion call, and
its count is 1. -/
theorem convert_proof_count_always_one_witness :
    Action.convertProofCall 1 ∈ (handlePost ⟨fun _ _ => "", fun _ => ""⟩
      (fun _ _ => true) ⟨JsVal.bytesV [1], JsVal.arrV [], JsVal.bytesV [2]⟩).2 ∧
    (1 : Nat) = 1 :=
  ⟨by decide,
   (convert_proof_count_always_one ⟨fun _ _ => "", fun _ => ""⟩ [] []).2.2
     (fun _ _ => true) ⟨JsVal.bytesV [1], JsVal.arrV [], JsVal.bytesV [2]⟩ 1
     (by decide)⟩

end ZkBackend
